import Mathlib

/-!
Verification of the transport/validation/normalization layer of the
n8n-nodes-attentive repository (an n8n community node for the Attentive
SMS-marketing API), as a shallow embedding in Lean 4.

Source files embedded here:
* `nodes/Attentive/utils/index.ts` — `formatPhoneNumber`, `isValidE164`,
  `validatePhoneNumber`, `cleanObject`, `parseProductItems`, `getTimestamp`;
* the transport module — `attentiveApiRequest`,
  `attentiveApiRequestAllItems`, `handleApiError`;
* `Attentive.node.ts` — the per-item dispatch loop in `Attentive.execute`.

JavaScript strings are modelled as Lean `String` (operated on through their
character lists), JS numbers as `Int`/`Nat`/`ℚ` with `NaN` modelled as
`Option.none` of the corresponding parse, thrown exceptions as `Except`,
and the mutable `query` object of the pagination loop as explicit state
that is threaded through and returned.
-/

/-! ## Phone utilities (`nodes/Attentive/utils/index.ts`) -/

/-- Embedding of `formatPhoneNumber` (utils/index.ts lines 15-30):
`if (!phone) return phone;` then
`const digits = phone.replace(/[^\d+]/g, '');` — the regex keeps every
digit and every plus sign — then returns `digits` when it starts with
a plus and otherwise prepends one. -/
def formatPhoneNumber (phone : String) : String :=
  if phone = "" then phone
  else
    let digits := phone.data.filter (fun c => c.isDigit || c = '+')
    if digits.head? = some '+' then String.mk digits
    else String.mk ('+' :: digits)

/-- Embedding of `isValidE164` (utils/index.ts lines 37-40): the regex
test for a leading plus, a first digit 1-9 and 1 to 14 further digits. -/
def isValidE164 (phone : String) : Bool :=
  match phone.data with
  | '+' :: c :: rest =>
      ('1' ≤ c && c ≤ '9') && (1 ≤ rest.length && rest.length ≤ 14)
        && rest.all Char.isDigit
  | _ => false

/-- The message of the `NodeOperationError` thrown by `validatePhoneNumber`
(utils/index.ts line 52), interpolating its `phone` argument. -/
def invalidPhoneMessage (phone : String) : String :=
  "Invalid phone number format: \"" ++ phone ++
    "\". Phone numbers must be in E.164 format (e.g., +19148440001)."

/-- Embedding of `validatePhoneNumber` (utils/index.ts lines 47-55): it
formats its argument, and when the formatted value fails `isValidE164` it
throws a `NodeOperationError` whose message interpolates the argument. -/
def validatePhoneNumber (phone : String) : Except String Unit :=
  if isValidE164 (formatPhoneNumber phone) then Except.ok ()
  else Except.error (invalidPhoneMessage phone)

/-- The composite validation pipeline as it appears at every phone-bearing
call site (e.g. `actions/subscriber/index.ts`):
`const phone = formatPhoneNumber(raw); validatePhoneNumber(phone, this);`. -/
def requirePhone (raw : String) : Except String Unit :=
  validatePhoneNumber (formatPhoneNumber raw)

/-- The normalization the claim describes (spec §4.1 `normalizePhone`):
strip every character except digits and a LEADING plus, then prefix a
plus when none is present after stripping.  Stated from the spec's words,
for comparison with the source's `formatPhoneNumber`. -/
def claimNormalizePhone (s : String) : String :=
  if s = "" then ""
  else
    let kept := match s.data with
      | '+' :: rest => '+' :: rest.filter Char.isDigit
      | l => l.filter Char.isDigit
    if kept.head? = some '+' then String.mk kept
    else String.mk ('+' :: kept)

/-- The amended normalization: strip every character except digits and
plus signs wherever they occur, then prefix a plus when the stripped
string does not already start with one; the empty string maps to itself. -/
def amendedNormalizePhone (s : String) : String :=
  if s = "" then ""
  else
    let kept := s.data.filter (fun c => c.isDigit || c = '+')
    if kept.head? = some '+' then String.mk kept
    else String.mk ('+' :: kept)

/-- Boolean substring test on character lists, used to state that an error
message does or does not echo a given input. -/
def containsSub (needle : List Char) : List Char → Bool
  | [] => needle.isEmpty
  | c :: rest => needle.isPrefixOf (c :: rest) || containsSub needle rest

/-! ### Helper lemmas about `formatPhoneNumber` -/

theorem filter_keep_idem (l : List Char) :
    (l.filter (fun c => c.isDigit || c = '+')).filter
        (fun c => c.isDigit || c = '+')
      = l.filter (fun c => c.isDigit || c = '+') := by
  simp [List.filter_filter]

theorem formatPhoneNumber_idem (s : String) :
    formatPhoneNumber (formatPhoneNumber s) = formatPhoneNumber s := by
  unfold formatPhoneNumber
  by_cases hs : s = ""
  · simp [hs]
  · simp only [hs, if_false]
    set digits := s.data.filter (fun c => c.isDigit || c = '+') with hd
    have hff : digits.filter (fun c => c.isDigit || c = '+') = digits := by
      rw [hd]; exact filter_keep_idem s.data
    by_cases hplus : digits.head? = some '+'
    · have hne : digits ≠ [] := by
        intro h; rw [h] at hplus; simp at hplus
      have hmkne : String.mk digits ≠ "" := by
        intro h
        have : digits = [] := congrArg String.data h
        exact hne this
      simp only [hplus, if_true, hmkne, if_false]
      rw [hff, hplus]
      simp
    · have hmkne : String.mk ('+' :: digits) ≠ "" := by
        intro h
        have : ('+' :: digits : List Char) = [] := congrArg String.data h
        simp at this
      simp only [hplus, if_false, hmkne]
      have hfc : ('+' :: digits).filter (fun c => c.isDigit || c = '+')
          = '+' :: digits := by
        rw [List.filter_cons]
        simp [hff]
      rw [hfc]
      simp

/-! ### C9 — idempotence of `formatPhoneNumber` -/

/-- Claim C9: `formatPhoneNumber` is idempotent — a phone number already
normalized by the utility is left unchanged by any further pass. -/
theorem C9_formatPhoneNumber_idempotent (s : String) :
    formatPhoneNumber (formatPhoneNumber s) = formatPhoneNumber s :=
  formatPhoneNumber_idem s

/-! ### C7 — what `formatPhoneNumber` strips -/

/-- Claim C7 counterexample: the claim says every character except digits
and a LEADING plus is stripped, which would send `"1+2"` to `"+12"`; the
source's regex `[^\d+]` keeps every plus sign, so the code returns
`"+1+2"` instead. -/
theorem C7_counterexample :
    formatPhoneNumber "1+2" = "+1+2" ∧ claimNormalizePhone "1+2" = "+12"
      ∧ ("+1+2" : String) ≠ "+12" := by
  refine ⟨by decide, by decide, by decide⟩

/-- Claim C7 (amended): `formatPhoneNumber` strips every character except
digits and plus signs wherever they occur, and prefixes a plus when the
stripped string does not already start with one; the empty string maps to
the empty string; the four examples of the claim evaluate as stated. -/
theorem C7_formatPhoneNumber_amended (s : String) :
    formatPhoneNumber s = amendedNormalizePhone s
      ∧ formatPhoneNumber "19148440001" = "+19148440001"
      ∧ formatPhoneNumber "+19148440001" = "+19148440001"
      ∧ formatPhoneNumber "1-914-844-0001" = "+19148440001"
      ∧ formatPhoneNumber "" = "" := by
  refine ⟨?_, by decide, by decide, by decide, by decide⟩
  unfold formatPhoneNumber amendedNormalizePhone
  by_cases hs : s = "" <;> simp [hs]

/-! ### C3 — phone validation error messages -/

/-- Claim C3 counterexample: for raw input `"0-12"` the pipeline
normalizes to `"+012"`, which fails `isValidE164`; the error raised at
the call sites (`validatePhoneNumber(formatPhoneNumber(raw))`) echoes the
NORMALIZED form `"+012"`, and the original raw input `"0-12"` does not
occur anywhere in the message, contradicting the claim that the message
echoes the original raw input string. -/
theorem C3_counterexample :
    requirePhone "0-12" = Except.error (invalidPhoneMessage "+012")
      ∧ containsSub ("0-12".data) ((invalidPhoneMessage "+012").data) = false := by
  exact ⟨rfl, by decide⟩

/-- Claim C3 (amended): `requirePhone raw` (normalize then validate, as at
every phone-bearing call site) raises exactly when the normalized form
fails `isValidE164`, and the error message echoes the NORMALIZED phone
number `formatPhoneNumber raw`, not the original raw input; when the
normalized form passes `isValidE164` no error is raised. -/
theorem C3_requirePhone_amended (raw : String) :
    requirePhone raw =
      (if isValidE164 (formatPhoneNumber raw) then Except.ok ()
       else Except.error (invalidPhoneMessage (formatPhoneNumber raw))) := by
  unfold requirePhone validatePhoneNumber
  rw [formatPhoneNumber_idem]

/-! ## `cleanObject` (utils/index.ts lines 62-79) -/

/-- Model of the JavaScript values an `IDataObject` entry can hold. -/
inductive JValue where
  | vUndef : JValue
  | vNull : JValue
  | vStr : String → JValue
  | vNum : Int → JValue
  | vBool : Bool → JValue
  | vArr : List JValue → JValue
  | vObj : List (String × JValue) → JValue

/-- Embedding of `cleanObject` (utils/index.ts lines 62-79): iterates the
entries in order; entries whose value is `undefined`, `null` or `''` are
dropped; a non-array object value is cleaned recursively and kept only
when the cleaned result is non-empty; an array value is kept verbatim
when non-empty and dropped when empty; every other value is kept. -/
def cleanObject : List (String × JValue) → List (String × JValue)
  | [] => []
  | (_, JValue.vUndef) :: rest => cleanObject rest
  | (_, JValue.vNull) :: rest => cleanObject rest
  | (k, JValue.vStr s) :: rest =>
      if s = "" then cleanObject rest
      else (k, JValue.vStr s) :: cleanObject rest
  | (k, JValue.vObj fields) :: rest =>
      let cleanedNested := cleanObject fields
      if 0 < cleanedNested.length then (k, JValue.vObj cleanedNested) :: cleanObject rest
      else cleanObject rest
  | (k, JValue.vArr xs) :: rest =>
      if 0 < xs.length then (k, JValue.vArr xs) :: cleanObject rest
      else cleanObject rest
  | (k, JValue.vNum v) :: rest => (k, JValue.vNum v) :: cleanObject rest
  | (k, JValue.vBool b) :: rest => (k, JValue.vBool b) :: cleanObject rest
termination_by l => sizeOf l
decreasing_by all_goals (simp_wf; try omega)

mutual
/-- The per-entry rule of the spec's `prune`: absent values and the empty
string are removed, nested mappings are pruned recursively and dropped
when the pruned result is empty, arrays are kept verbatim when non-empty
and dropped when empty, and every scalar (including `0` and `false`)
is preserved.  Stated from the spec's words, for comparison with the
source's `cleanObject`. -/
def pruneEntry : JValue → Option JValue
  | JValue.vUndef => none
  | JValue.vNull => none
  | JValue.vStr s => if s = "" then none else some (JValue.vStr s)
  | JValue.vObj fields =>
      match pruneFields fields with
      | [] => none
      | l => some (JValue.vObj l)
  | JValue.vArr xs => if xs.isEmpty then none else some (JValue.vArr xs)
  | JValue.vNum v => some (JValue.vNum v)
  | JValue.vBool b => some (JValue.vBool b)
termination_by v => sizeOf v
decreasing_by all_goals (simp_wf; try omega)

/-- The spec's `prune` on a mapping: apply `pruneEntry` to every entry in
order, dropping the entries on which it yields nothing. -/
def pruneFields : List (String × JValue) → List (String × JValue)
  | [] => []
  | (k, v) :: rest =>
      match pruneEntry v with
      | none => pruneFields rest
      | some w => (k, w) :: pruneFields rest
termination_by l => sizeOf l
decreasing_by all_goals (simp_wf; try omega)
end

theorem cleanObject_eq_aux :
    ∀ (N : Nat) (l : List (String × JValue)), sizeOf l ≤ N →
      cleanObject l = pruneFields l := by
  intro N
  induction N with
  | zero =>
      intro l h
      exfalso
      cases l <;> simp_all <;> omega
  | succ N ih =>
      intro l h
      match l with
      | [] => simp [cleanObject, pruneFields]
      | (k, v) :: rest =>
        have hrest : sizeOf rest ≤ N := by
          have := List.cons.sizeOf_spec (k, v) rest
          omega
        cases v with
        | vUndef => simp [cleanObject, pruneFields, pruneEntry, ih rest hrest]
        | vNull => simp [cleanObject, pruneFields, pruneEntry, ih rest hrest]
        | vStr s =>
            by_cases hs : s = "" <;>
              simp [cleanObject, pruneFields, pruneEntry, hs, ih rest hrest]
        | vNum n => simp [cleanObject, pruneFields, pruneEntry, ih rest hrest]
        | vBool b => simp [cleanObject, pruneFields, pruneEntry, ih rest hrest]
        | vArr xs =>
            by_cases hx : xs = []
            · simp [cleanObject, pruneFields, pruneEntry, hx, ih rest hrest]
            · have : 0 < xs.length := by cases xs <;> simp_all
              simp [cleanObject, pruneFields, pruneEntry, hx, this,
                ih rest hrest]
        | vObj fields =>
            have hfields : sizeOf fields ≤ N := by
              have h1 := List.cons.sizeOf_spec (k, JValue.vObj fields) rest
              have h2 : sizeOf (k, JValue.vObj fields)
                  = 1 + sizeOf k + sizeOf (JValue.vObj fields) := by
                simp
              have h3 : sizeOf (JValue.vObj fields) = 1 + sizeOf fields := by
                simp
              omega
            have hn := ih fields hfields
            rcases hpf : pruneFields fields with _ | ⟨p, ps⟩
            · simp [cleanObject, pruneFields, pruneEntry, hn, hpf,
                ih rest hrest]
            · simp [cleanObject, pruneFields, pruneEntry, hn, hpf,
                ih rest hrest]

theorem cleanObject_eq_pruneFields (l : List (String × JValue)) :
    cleanObject l = pruneFields l :=
  cleanObject_eq_aux (sizeOf l) l (Nat.le_refl _)

/-! ### C5 — `cleanObject` prunes exactly as specified -/

/-- Claim C5: `cleanObject` removes every entry whose value is absent
(`undefined`/`null`) or the empty string, recursively prunes nested
mappings and drops them entirely when the pruned result is empty, keeps
non-empty array values verbatim and drops empty ones, and preserves the
falsy-but-meaningful scalars `0` and `false`; in particular
`prune({a:"v", b:undefined, c:null, d:""}) = {a:"v"}`, and a nested
mapping pruned to empty is removed rather than left as `{}`. -/
theorem C5_cleanObject (l : List (String × JValue)) :
    cleanObject l = pruneFields l
      ∧ cleanObject
          [("a", JValue.vStr "v"), ("b", JValue.vUndef),
           ("c", JValue.vNull), ("d", JValue.vStr "")]
        = [("a", JValue.vStr "v")]
      ∧ cleanObject [("a", JValue.vStr "v"), ("nested", JValue.vObj [("b", JValue.vUndef)])]
        = [("a", JValue.vStr "v")]
      ∧ cleanObject
          [("a", JValue.vStr "v"), ("b", JValue.vNum 0),
           ("c", JValue.vBool false), ("d", JValue.vArr [])]
        = [("a", JValue.vStr "v"), ("b", JValue.vNum 0), ("c", JValue.vBool false)]
      ∧ cleanObject [("xs", JValue.vArr [JValue.vStr ""])]
        = [("xs", JValue.vArr [JValue.vStr ""])] := by
  refine ⟨cleanObject_eq_pruneFields l, ?_, ?_, ?_, ?_⟩ <;>
    simp [cleanObject]

/-! ## JavaScript number parsing (models of the builtins used by
`parseProductItems`) -/

/-- Decimal digits to a natural number. -/
def digitsToNat (l : List Char) : Nat :=
  l.foldl (fun acc c => acc * 10 + (c.toNat - 48)) 0

/-- Model of `parseInt(s, 10)`: skip leading whitespace, take an optional
sign and then the longest run of decimal digits; `NaN` (modelled as
`none`) when that run is empty. -/
def parseIntJS (s : String) : Option Int :=
  let cs := s.data.dropWhile Char.isWhitespace
  match cs with
  | '-' :: r =>
      let ds := r.takeWhile Char.isDigit
      if ds.isEmpty then none else some (-(digitsToNat ds : Int))
  | '+' :: r =>
      let ds := r.takeWhile Char.isDigit
      if ds.isEmpty then none else some (digitsToNat ds : Int)
  | _ =>
      let ds := cs.takeWhile Char.isDigit
      if ds.isEmpty then none else some (digitsToNat ds : Int)

/-- Mantissa of a decimal literal: longest digit run, optionally followed
by a point and a further digit run; `none` when no digit at all. -/
def parseMantissa (l : List Char) : Option ℚ :=
  let ip := l.takeWhile Char.isDigit
  let r := l.dropWhile Char.isDigit
  let fp := match r with
    | '.' :: r2 => r2.takeWhile Char.isDigit
    | _ => []
  if ip.isEmpty && fp.isEmpty then none
  else some (mkRat (digitsToNat ip * 10 ^ fp.length + digitsToNat fp) (10 ^ fp.length))

/-- Model of `parseFloat(s)` on plain decimal literals (no exponent
forms): skip leading whitespace, optional sign, then the longest decimal
mantissa prefix; `NaN` (modelled as `none`) when no digits are found. -/
def parseFloatQ (s : String) : Option ℚ :=
  let cs := s.data.dropWhile Char.isWhitespace
  match cs with
  | '-' :: r => (parseMantissa r).map (fun q => -q)
  | '+' :: r => parseMantissa r
  | _ => parseMantissa cs

/-- JS `x || d` on a number whose `NaN` is modelled as `none`: the
default is taken when the value is `NaN` or `0` (both falsy). -/
def jsNumOr (v : Option ℚ) (d : ℚ) : ℚ :=
  match v with
  | none => d
  | some x => if x = 0 then d else x

/-- JS `x || d` on an integer whose `NaN` is modelled as `none`. -/
def jsIntOr (v : Option Int) (d : Int) : Int :=
  match v with
  | none => d
  | some x => if x = 0 then d else x

/-- JS truthiness filter on an optional string: `if (x) { keep x }` keeps
the string exactly when it is present and non-empty. -/
def truthyOptStr (o : Option String) : Option String :=
  match o with
  | some s => if s = "" then none else some s
  | none => none

/-! ## `parseProductItems` (utils/index.ts lines 110-150) -/

/-- A raw UI product item as read off the `items` collection; the
`category` field may hold either a bare string or an array of strings. -/
structure RawItem where
  productId : String
  name : String
  price : String
  currency : Option String
  quantity : String
  productVariantId : Option String
  productImage : Option String
  productUrl : Option String
  category : Option (String ⊕ List String)

/-- The `price` object of a parsed Product Line Item. -/
structure Price where
  value : ℚ
  currency : String
deriving DecidableEq

/-- A parsed Product Line Item. -/
structure ProductItem where
  productId : String
  name : String
  price : Price
  quantity : Int
  productVariantId : Option String
  productImage : Option String
  productUrl : Option String
  category : Option (List String)
deriving DecidableEq

/-- Embedding of the per-item body of `parseProductItems`
(utils/index.ts lines 119-145): price `parseFloat(item.price) || 0` with
currency `item.currency || 'USD'`, quantity `parseInt(item.quantity, 10)
|| 1`, optional fields kept when truthy, and a truthy `category` wrapped
in a singleton array unless it already is an array. -/
def parseProductItem (item : RawItem) : ProductItem :=
  { productId := item.productId
    name := item.name
    price :=
      { value := jsNumOr (parseFloatQ item.price) 0
        currency :=
          match item.currency with
          | some c => if c = "" then "USD" else c
          | none => "USD" }
    quantity := jsIntOr (parseIntJS item.quantity) 1
    productVariantId := truthyOptStr item.productVariantId
    productImage := truthyOptStr item.productImage
    productUrl := truthyOptStr item.productUrl
    category :=
      match item.category with
      | none => none
      | some (Sum.inl s) => if s = "" then none else some [s]
      | some (Sum.inr l) => some l }

/-- Embedding of `parseProductItems`: maps the raw items in order. -/
def parseProductItems (items : List RawItem) : List ProductItem :=
  items.map parseProductItem

/-- The amended per-item mapping, stated from the amended claim's words:
price is the parsed floating-point value, defaulting to `0` on parse
failure; quantity is the parsed integer, defaulting to `1` when parsing
FAILS OR YIELDS `0`; category, when present and truthy, is normalized to
a list by wrapping a bare string. -/
def lineItemSpec (item : RawItem) : ProductItem :=
  { productId := item.productId
    name := item.name
    price :=
      { value := (parseFloatQ item.price).getD 0
        currency :=
          match item.currency with
          | some c => if c = "" then "USD" else c
          | none => "USD" }
    quantity :=
      match parseIntJS item.quantity with
      | none => 1
      | some q => if q = 0 then 1 else q
    productVariantId := truthyOptStr item.productVariantId
    productImage := truthyOptStr item.productImage
    productUrl := truthyOptStr item.productUrl
    category :=
      match item.category with
      | none => none
      | some (Sum.inl s) => if s = "" then none else some [s]
      | some (Sum.inr l) => some l }

/-- The raw item of the claim's round-trip example. -/
def rawExample : RawItem :=
  { productId := "SKU123", name := "Test Product", price := "29.99"
    currency := some "USD", quantity := "2", productVariantId := none
    productImage := none, productUrl := none, category := none }

/-- A raw item whose quantity field parses successfully to `0`. -/
def rawQtyZero : RawItem :=
  { productId := "SKU1", name := "P", price := "10", currency := none
    quantity := "0", productVariantId := none, productImage := none
    productUrl := none, category := none }

/-! ### C6 — `parseProductItems` -/

/-- Claim C6 counterexample: for a quantity input of `"0"`, parsing
succeeds and yields `0` (not a parse failure), yet the produced line item
carries quantity `1`, because the code computes
`parseInt(item.quantity, 10) || 1` and `0` is falsy — contradicting
"defaulting to 1 only on parse failure". -/
theorem C6_counterexample :
    parseIntJS "0" = some 0
      ∧ (parseProductItems [rawQtyZero]).map (fun p => p.quantity) = [1]
      ∧ (1 : Int) ≠ 0 := by
  exact ⟨rfl, rfl, by decide⟩

/-- Claim C6 (amended): `parseProductItems` maps each raw item, in order,
to a Product Line Item whose price is the input parsed as floating-point
defaulting to `0` only on parse failure, whose quantity is the input
parsed as integer defaulting to `1` when parsing fails OR yields `0`, and
whose category is normalized to a list (a bare string is wrapped in a
singleton list); price `"29.99"` with currency `"USD"` and quantity `"2"`
yields price value `29.99`, currency `"USD"` and quantity `2`. -/
theorem C6_parseProductItems_amended (items : List RawItem) :
    parseProductItems items = items.map lineItemSpec
      ∧ parseProductItems [rawExample]
        = [{ productId := "SKU123", name := "Test Product"
             price := { value := (29.99 : ℚ), currency := "USD" }
             quantity := 2, productVariantId := none, productImage := none
             productUrl := none, category := none }] := by
  constructor
  · unfold parseProductItems
    apply List.map_congr_left
    intro item _
    unfold parseProductItem lineItemSpec
    have hq : jsNumOr (parseFloatQ item.price) 0
        = (parseFloatQ item.price).getD 0 := by
      unfold jsNumOr
      cases parseFloatQ item.price with
      | none => rfl
      | some x =>
          by_cases hx : x = 0 <;> simp [hx]
    rw [hq]
    rfl
  · have h1 : (29.99 : ℚ) = mkRat 2999 100 := by
      rw [Rat.mkRat_eq_div]; norm_num
    rw [h1]
    rfl

/-! ## `getTimestamp` (utils/index.ts lines 169-174)

`new Date(...)` and `Date.prototype.toISOString` are JavaScript builtins;
they are modelled here on the ISO-8601 domain (full date, optional time
with optional seconds and milliseconds, optional `Z` or `±hh:mm` zone;
a zoneless time is taken as UTC).  An invalid date is modelled as `none`,
on which `toISOString` raises (the JS `RangeError: Invalid time value`). -/

/-- Leap-year test of the proleptic Gregorian calendar. -/
def isLeapYear (y : Int) : Bool :=
  (y % 4 = 0 && y % 100 ≠ 0) || y % 400 = 0

/-- Number of days of month `m` (1-12) of year `y`. -/
def daysInMonth (y : Int) (m : Nat) : Nat :=
  if m = 2 then (if isLeapYear y then 29 else 28)
  else if m = 4 ∨ m = 6 ∨ m = 9 ∨ m = 11 then 30
  else 31

/-- Days since 1970-01-01 of the civil date `y-m-d`. -/
def daysFromCivil (y : Int) (m d : Nat) : Int :=
  let y2 : Int := if m ≤ 2 then y - 1 else y
  let era : Int := Int.fdiv y2 400
  let yoe : Int := y2 - era * 400
  let mp : Int := (Int.ofNat m + 9) % 12
  let doy : Int := Int.fdiv (153 * mp + 2) 5 + Int.ofNat d - 1
  let doe : Int := yoe * 365 + Int.fdiv yoe 4 - Int.fdiv yoe 100 + doy
  era * 146097 + doe - 719468

/-- Civil date `(y, m, d)` of a number of days since 1970-01-01. -/
def civilFromDays (z0 : Int) : Int × Nat × Nat :=
  let z := z0 + 719468
  let era := Int.fdiv z 146097
  let doe := z - era * 146097
  let yoe := Int.fdiv (doe - Int.fdiv doe 1460 + Int.fdiv doe 36524
    - Int.fdiv doe 146096) 365
  let y := yoe + era * 400
  let doy := doe - (365 * yoe + Int.fdiv yoe 4 - Int.fdiv yoe 100)
  let mp := Int.fdiv (5 * doy + 2) 153
  let d := doy - Int.fdiv (153 * mp + 2) 5 + 1
  let m := if mp < 10 then mp + 3 else mp - 9
  (if m ≤ 2 then y + 1 else y, m.toNat, d.toNat)

/-- Left-pad a natural number with zeros to the given width. -/
def padNum (width n : Nat) : String :=
  let s := toString n
  if s.length < width then String.mk (List.replicate (width - s.length) '0') ++ s
  else s

/-- Model of `Date.prototype.toISOString` on epoch milliseconds (years
0-9999): `YYYY-MM-DDTHH:MM:SS.sssZ`. -/
def toISOString (t : Int) : String :=
  let days := Int.ediv t 86400000
  let msDay := (Int.emod t 86400000).toNat
  let c := civilFromDays days
  padNum 4 c.1.toNat ++ "-" ++ padNum 2 c.2.1 ++ "-" ++ padNum 2 c.2.2
    ++ "T" ++ padNum 2 (msDay / 3600000) ++ ":" ++ padNum 2 (msDay % 3600000 / 60000)
    ++ ":" ++ padNum 2 (msDay % 60000 / 1000) ++ "." ++ padNum 3 (msDay % 1000) ++ "Z"

/-- Take exactly `n` decimal digits off the front of a character list. -/
def takeDigits (n : Nat) (l : List Char) : Option (Nat × List Char) :=
  let pre := l.take n
  if pre.length = n && pre.all Char.isDigit then some (digitsToNat pre, l.drop n)
  else none

/-- Parse `hh:mm` of a numeric zone offset. -/
def parseZoneOffset (sign : Int) (l : List Char) : Option Int := do
  let (h, r1) ← takeDigits 2 l
  match r1 with
  | ':' :: r2 => do
      let (m, r3) ← takeDigits 2 r2
      if r3.isEmpty && h ≤ 23 && m ≤ 59 then some (sign * (h * 60 + m))
      else none
  | _ => none

/-- Parse a trailing zone designator: empty (taken as UTC in this model),
`Z`, or `±hh:mm`; yields the offset in minutes. -/
def parseZone (l : List Char) : Option Int :=
  match l with
  | [] => some 0
  | ['Z'] => some 0
  | '+' :: r => parseZoneOffset 1 r
  | '-' :: r => parseZoneOffset (-1) r
  | _ => none

/-- Epoch milliseconds of civil date-time components and a zone offset in
minutes. -/
def civilMillis (y : Int) (mo dy hh mi ss ms : Nat) (offMin : Int) : Int :=
  daysFromCivil y mo dy * 86400000
    + (hh * 3600000 + mi * 60000 + ss * 1000 + ms : Nat) - offMin * 60000

/-- Parse the `HH:MM[:SS[.sss]]` + zone tail of an ISO date-time. -/
def parseTimeAndZone (y : Int) (mo dy : Nat) (l : List Char) : Option Int := do
  let (hh, r1) ← takeDigits 2 l
  match r1 with
  | ':' :: r2 => do
      let (mi, r3) ← takeDigits 2 r2
      if 23 < hh || 59 < mi then none
      else
        match r3 with
        | ':' :: r4 => do
            let (ss, r5) ← takeDigits 2 r4
            if 59 < ss then none
            else
              match r5 with
              | '.' :: r6 => do
                  let (ms, r7) ← takeDigits 3 r6
                  let off ← parseZone r7
                  some (civilMillis y mo dy hh mi ss ms off)
              | _ => do
                  let off ← parseZone r5
                  some (civilMillis y mo dy hh mi ss 0 off)
        | _ => do
            let off ← parseZone r3
            some (civilMillis y mo dy hh mi 0 0 off)
  | _ => none

/-- Model of `new Date(string)` on the ISO-8601 domain: a full
`YYYY-MM-DD` date, optionally followed by `T` and a time; `none` models
an Invalid Date. -/
def parseDateJS (s : String) : Option Int := do
  let (y, r1) ← takeDigits 4 s.data
  match r1 with
  | '-' :: r2 => do
      let (mo, r3) ← takeDigits 2 r2
      if mo < 1 || 12 < mo then none
      else
        match r3 with
        | '-' :: r4 => do
            let (dy, r5) ← takeDigits 2 r4
            if dy < 1 || daysInMonth (Int.ofNat y) mo < dy then none
            else
              match r5 with
              | [] => some (civilMillis (Int.ofNat y) mo dy 0 0 0 0 0)
              | 'T' :: r6 => parseTimeAndZone (Int.ofNat y) mo dy r6
              | _ => none
        | _ => none
  | _ => none

/-- Embedding of `getTimestamp` (utils/index.ts lines 169-174):
`if (timestamp) return new Date(timestamp).toISOString(); return new
Date().toISOString();` — the truthiness test sends an absent OR empty
input to the current instant (`nowMillis`, supplied as a parameter since
the wall clock is ambient state); `toISOString` on an Invalid Date raises
(modelled as `Except.error "Invalid time value"`). -/
def getTimestamp (nowMillis : Int) (timestamp : Option String) :
    Except String String :=
  match timestamp with
  | some t =>
      if t = "" then Except.ok (toISOString nowMillis)
      else
        match parseDateJS t with
        | some m => Except.ok (toISOString m)
        | none => Except.error "Invalid time value"
  | none => Except.ok (toISOString nowMillis)

/-- Whether an `Except` result is a success. -/
def exceptIsOk {ε α : Type} (r : Except ε α) : Bool :=
  match r with
  | Except.ok _ => true
  | Except.error _ => false

/-! ### C8 — `getTimestamp` -/

/-- Claim C8 counterexample: the empty string is a present input and is
unparseable as a date (`new Date('')` is an Invalid Date), so the claim
demands a `ValidationError`; but `if (timestamp)` treats the empty string
as falsy, and the code returns the current instant instead of raising. -/
theorem C8_counterexample :
    getTimestamp 0 (some "") = Except.ok (toISOString 0)
      ∧ parseDateJS "" = none := by
  exact ⟨rfl, rfl⟩

/-- Claim C8 (amended): `getTimestamp` returns the current instant
formatted as ISO-8601 with millisecond precision and `Z` offset when the
input is absent OR the empty string; it reformats a parseable input to
that same shape (`"2024-01-15T10:30:00Z"` yields
`"2024-01-15T10:30:00.000Z"`); and it fails exactly when the input is
present, non-empty, and unparseable as a date. -/
theorem C8_getTimestamp_amended (now : Int) (t : String) :
    getTimestamp now none = Except.ok (toISOString now)
      ∧ getTimestamp now (some "") = Except.ok (toISOString now)
      ∧ (exceptIsOk (getTimestamp now (some t)) = false
          ↔ (t ≠ "" ∧ parseDateJS t = none))
      ∧ (∀ m, parseDateJS t = some m →
          getTimestamp now (some t) = Except.ok (toISOString m))
      ∧ getTimestamp now (some "2024-01-15T10:30:00Z")
        = Except.ok "2024-01-15T10:30:00.000Z" := by
  refine ⟨rfl, rfl, ?_, ?_, ?_⟩
  · unfold getTimestamp
    by_cases ht : t = ""
    · simp [ht, exceptIsOk]
    · simp only [ht, if_false, ne_eq, not_false_iff, true_and]
      cases hp : parseDateJS t <;> simp [exceptIsOk, hp]
  · intro m hm
    have ht : t ≠ "" := by
      intro h
      subst h
      rw [show parseDateJS "" = none from rfl] at hm
      cases hm
    unfold getTimestamp
    simp [ht, hm]
  · rfl

/-! ## Transport layer (`transport/index.ts`) -/

/-- The query object handed to `attentiveApiRequestAllItems`.  The code
mutates `query.limit` and `query.offset` in place; the mutation is made
observable here by returning the final query state.  `rest` stands for
any other fields the caller put in the query, which the loop never
touches. -/
structure Query where
  limit : Option Nat
  offset : Option Nat
  rest : List (String × String)
deriving DecidableEq

/-- One page response: `items` is `response[dataKey]` (`none` models an
absent or non-array field), `total` is `meta.total` (`none` models an
absent metadata total; JS falsiness of `0` is handled in the loop). -/
structure PageResponse where
  items : Option (List Nat)
  total : Option Nat
deriving DecidableEq

/-- Embedding of the body of the `for` loop of
`attentiveApiRequestAllItems` (transport lines 76-93), with the
underlying `attentiveApiRequest` call abstracted as `backend`.  Each
round writes `query.offset = offset`, issues the request, appends the
`dataKey` array when it is one, and stops when `meta.total` is falsy
(absent or `0`) or the accumulator has reached it; otherwise the offset
grows by the fixed limit.  The request log records the exact query state
of each issued request. -/
def pageLoop (backend : Query → PageResponse) :
    Nat → Query → Nat → List Nat → List Query → List Nat × Query × List Query
  | 0, q, _, acc, log => (acc, q, log)
  | fuel + 1, q, offset, acc, log =>
      let q1 := { q with offset := some offset }
      let resp := backend q1
      let acc1 := acc ++ resp.items.getD []
      let log1 := log ++ [q1]
      match resp.total with
      | none => (acc1, q1, log1)
      | some total =>
          if total = 0 ∨ total ≤ acc1.length then (acc1, q1, log1)
          else pageLoop backend fuel q1 (offset + 100) acc1 log1

/-- Embedding of `attentiveApiRequestAllItems` (transport lines 60-96):
`query.limit = 100` is written into the caller's query before the loop,
the offset starts at `0`, and the safety bound is 1000 iterations. -/
def attentiveApiRequestAllItems (backend : Query → PageResponse)
    (query : Query) : List Nat × Query × List Query :=
  pageLoop backend 1000 { query with limit := some 100 } 0 [] []

/-- A backend declaring `meta.total = 250` over records `0..249`, serving
pages of the requested size from the requested offset. -/
def backend250 (q : Query) : PageResponse :=
  { items := some (((List.range 250).drop (q.offset.getD 0)).take (q.limit.getD 0))
    total := some 250 }

/-- The empty query. -/
def emptyQuery : Query := { limit := none, offset := none, rest := [] }

/-- Composing two offset updates keeps only the second. -/
theorem query_update_update (q : Query) (x y : Option Nat) :
    ({ { q with offset := x } with offset := y } : Query)
      = { q with offset := y } := rfl

/-- Step equation of the loop: a round whose response carries no
`meta.total` stops immediately. -/
theorem pageLoop_succ_none (backend : Query → PageResponse) (fuel : Nat)
    (q : Query) (off : Nat) (acc : List Nat) (log : List Query)
    (h : (backend { q with offset := some off }).total = none) :
    pageLoop backend (fuel + 1) q off acc log
      = (acc ++ (backend { q with offset := some off }).items.getD [],
         { q with offset := some off }, log ++ [{ q with offset := some off }]) := by
  simp only [pageLoop, h]

/-- Step equation of the loop: a round whose response's total is falsy
(`0`) or already covered by the accumulator stops. -/
theorem pageLoop_succ_stop (backend : Query → PageResponse) (fuel : Nat)
    (q : Query) (off : Nat) (acc : List Nat) (log : List Query) (total : Nat)
    (h : (backend { q with offset := some off }).total = some total)
    (hs : total = 0 ∨ total ≤ (acc ++ (backend { q with offset := some off }).items.getD []).length) :
    pageLoop backend (fuel + 1) q off acc log
      = (acc ++ (backend { q with offset := some off }).items.getD [],
         { q with offset := some off }, log ++ [{ q with offset := some off }]) := by
  simp only [pageLoop, h]
  rw [if_pos hs]

/-- Step equation of the loop: otherwise the loop continues with the
offset advanced by the fixed limit. -/
theorem pageLoop_succ_cont (backend : Query → PageResponse) (fuel : Nat)
    (q : Query) (off : Nat) (acc : List Nat) (log : List Query) (total : Nat)
    (h : (backend { q with offset := some off }).total = some total)
    (hs : ¬ (total = 0 ∨ total ≤ (acc ++ (backend { q with offset := some off }).items.getD []).length)) :
    pageLoop backend (fuel + 1) q off acc log
      = pageLoop backend fuel { q with offset := some off } (off + 100)
          (acc ++ (backend { q with offset := some off }).items.getD [])
          (log ++ [{ q with offset := some off }]) := by
  simp only [pageLoop, h]
  rw [if_neg hs]

/-- Invariant of the pagination loop: starting from offset `off`, the
requests appended to the log are exactly the successive queries with
offsets `off, off+100, off+200, ...`, the final query state is the one of
the last issued request, and at least one request is issued when fuel
remains. -/
theorem pageLoop_spec (backend : Query → PageResponse) (fuel : Nat) :
    ∀ (q : Query) (off : Nat) (acc : List Nat) (log : List Query),
      ∃ n, n ≤ fuel ∧ (fuel ≠ 0 → n ≠ 0) ∧
        (pageLoop backend fuel q off acc log).2.2
          = log ++ (List.range n).map (fun j => { q with offset := some (off + 100 * j) }) ∧
        (pageLoop backend fuel q off acc log).2.1
          = (if n = 0 then q else { q with offset := some (off + 100 * (n - 1)) }) := by
  induction fuel with
  | zero =>
      intro q off acc log
      exact ⟨0, Nat.le_refl 0, fun h => absurd rfl h, by simp [pageLoop], by simp [pageLoop]⟩
  | succ fuel ih =>
      intro q off acc log
      rcases htot : (backend { q with offset := some off }).total with _ | total
      · rw [pageLoop_succ_none backend fuel q off acc log htot]
        refine ⟨1, by omega, fun _ => by omega, ?_, ?_⟩ <;>
          simp [List.range_succ]
      · by_cases hstop : total = 0 ∨ total ≤ (acc ++ (backend { q with offset := some off }).items.getD []).length
        · rw [pageLoop_succ_stop backend fuel q off acc log total htot hstop]
          refine ⟨1, by omega, fun _ => by omega, ?_, ?_⟩ <;>
            simp [List.range_succ]
        · rw [pageLoop_succ_cont backend fuel q off acc log total htot hstop]
          obtain ⟨m, hm, hm0, hlog, hfin⟩ :=
            ih { q with offset := some off } (off + 100)
              (acc ++ (backend { q with offset := some off }).items.getD [])
              (log ++ [{ q with offset := some off }])
          simp only [query_update_update] at hlog hfin
          have hmap : List.map
                (fun j => ({ q with offset := some (off + 100 + 100 * j) } : Query))
                (List.range m)
              = List.map
                ((fun j => ({ q with offset := some (off + 100 * j) } : Query)) ∘ Nat.succ)
                (List.range m) := by
            apply List.map_congr_left
            intro a _
            have harith : off + 100 + 100 * a = off + 100 * Nat.succ a := by omega
            simp [Function.comp, harith]
          refine ⟨m + 1, by omega, fun _ => by omega, ?_, ?_⟩
          · rw [hlog, hmap, List.range_succ_eq_map, List.map_cons, List.map_map,
              List.append_assoc, List.singleton_append]
            simp
          · rw [hfin]
            rcases Nat.eq_zero_or_pos m with hm' | hm'
            · subst hm'
              simp
            · have hmne : ¬ m = 0 := by omega
              have hm1ne : ¬ m + 1 = 0 := by omega
              simp only [hmne, if_false, hm1ne, Nat.add_sub_cancel]
              have harith : off + 100 + 100 * (m - 1) = off + 100 * m := by omega
              simp [harith]

/-- The first round of the loop does not depend on the offset the caller
left in the query: it is overwritten before the first request. -/
theorem pageLoop_offset_irrel (backend : Query → PageResponse) (fuel : Nat)
    (q : Query) (off : Nat) (acc : List Nat) (log : List Query) (x : Option Nat) :
    pageLoop backend (fuel + 1) { q with offset := x } off acc log
      = pageLoop backend (fuel + 1) q off acc log := by
  simp only [pageLoop, query_update_update]

/-- A backend that never declares a total. -/
def backendNoTotal (_ : Query) : PageResponse :=
  { items := some [7], total := none }

/-- A backend declaring `meta.total = 50` and serving all 50 records in
its first page. -/
def backendSmall (_ : Query) : PageResponse :=
  { items := some (List.range 50), total := some 50 }

/-! ### C1 — pagination -/

set_option maxRecDepth 20000 in
/-- Claim C1: `attentiveApiRequestAllItems` issues its requests with the
fixed limit 100 and offsets 0, 100, 200, ... (one request per round,
incremented by 100), stops immediately when the response's declared
total is falsy or already covered by the accumulator, and against a
backend declaring total 250 and serving 100-record pages it issues
exactly 3 requests with offsets 0, 100, 200 and returns all 250 records
in order. -/
theorem C1_pagination :
    (∀ (backend : Query → PageResponse) (q : Query), ∃ n, n ≠ 0 ∧
        (attentiveApiRequestAllItems backend q).2.2
          = (List.range n).map
              (fun j => { limit := some 100, offset := some (100 * j), rest := q.rest }))
      ∧ (∀ (backend : Query → PageResponse) (q : Query),
          (backend { limit := some 100, offset := some 0, rest := q.rest }).total = none →
            (attentiveApiRequestAllItems backend q).2.2
              = [{ limit := some 100, offset := some 0, rest := q.rest }])
      ∧ (∀ (backend : Query → PageResponse) (q : Query) (t : Nat),
          (backend { limit := some 100, offset := some 0, rest := q.rest }).total = some t →
          (t = 0 ∨ t ≤ ((backend { limit := some 100, offset := some 0, rest := q.rest }).items.getD []).length) →
            (attentiveApiRequestAllItems backend q).2.2
              = [{ limit := some 100, offset := some 0, rest := q.rest }])
      ∧ (attentiveApiRequestAllItems backend250 emptyQuery).1 = List.range 250
      ∧ (attentiveApiRequestAllItems backend250 emptyQuery).2.2
        = [{ limit := some 100, offset := some 0, rest := [] },
           { limit := some 100, offset := some 100, rest := [] },
           { limit := some 100, offset := some 200, rest := [] }] := by
  refine ⟨?_, ?_, ?_, ?_, ?_⟩
  · intro backend q
    obtain ⟨n, _, hn0, hlog, _⟩ :=
      pageLoop_spec backend 1000 { q with limit := some 100 } 0 [] []
    refine ⟨n, hn0 (by omega), ?_⟩
    unfold attentiveApiRequestAllItems
    rw [hlog]
    simp only [List.nil_append]
    apply List.map_congr_left
    intro a _
    have : 0 + 100 * a = 100 * a := by omega
    rw [this]
  · intro backend q h
    unfold attentiveApiRequestAllItems
    rw [show (1000 : Nat) = 999 + 1 from rfl,
      pageLoop_succ_none backend 999 { q with limit := some 100 } 0 [] [] h]
    rfl
  · intro backend q t ht hs
    unfold attentiveApiRequestAllItems
    rw [show (1000 : Nat) = 999 + 1 from rfl,
      pageLoop_succ_stop backend 999 { q with limit := some 100 } 0 [] [] t ht
        (by simpa using hs)]
    rfl
  · rfl
  · rfl

/-- Claim C1 witness: the stopping conditions applied at concrete
backends — one that declares no total (one request, offset 0), and one
that declares total 50 covered by the first page (one request). -/
theorem C1_pagination_witness :
    (attentiveApiRequestAllItems backendNoTotal emptyQuery).2.2
        = [{ limit := some 100, offset := some 0, rest := [] }]
      ∧ (attentiveApiRequestAllItems backendSmall emptyQuery).2.2
        = [{ limit := some 100, offset := some 0, rest := [] }] := by
  constructor
  · exact C1_pagination.2.1 backendNoTotal emptyQuery rfl
  · exact C1_pagination.2.2.1 backendSmall emptyQuery 50 rfl (by simp [backendSmall])

/-! ### C10 — the caller's query is mutated -/

set_option maxRecDepth 20000 in
/-- Claim C10: `attentiveApiRequestAllItems` overwrites the
caller-supplied query's `limit` and `offset`: any values the caller put
there are discarded (the run is identical whatever they were), and after
the call the caller observes the mutated query — `limit = 100`, the
offset of the last issued request, and every other field untouched; in
particular a caller-supplied `limit = 7, offset = 999` is observed as
`limit = 100, offset = 200` after the 3-page run against `backend250`. -/
theorem C10_query_mutation :
    (∀ (backend : Query → PageResponse) (q : Query) (a b : Option Nat),
        attentiveApiRequestAllItems backend { q with limit := a, offset := b }
          = attentiveApiRequestAllItems backend q)
      ∧ (∀ (backend : Query → PageResponse) (q : Query),
          (attentiveApiRequestAllItems backend q).2.1.limit = some 100)
      ∧ (∀ (backend : Query → PageResponse) (q : Query),
          (attentiveApiRequestAllItems backend q).2.1.rest = q.rest)
      ∧ (∀ (backend : Query → PageResponse) (q : Query), ∃ n, n ≠ 0
          ∧ (attentiveApiRequestAllItems backend q).2.2.length = n
          ∧ (attentiveApiRequestAllItems backend q).2.1.offset = some (100 * (n - 1)))
      ∧ (attentiveApiRequestAllItems backend250
            { limit := some 7, offset := some 999, rest := [] }).2.1
        = { limit := some 100, offset := some 200, rest := [] } := by
  refine ⟨?_, ?_, ?_, ?_, ?_⟩
  · intro backend q a b
    unfold attentiveApiRequestAllItems
    rw [show (1000 : Nat) = 999 + 1 from rfl]
    exact pageLoop_offset_irrel backend 999 { q with limit := some 100 } 0 [] [] b
  · intro backend q
    obtain ⟨n, _, hn0, _, hfin⟩ :=
      pageLoop_spec backend 1000 { q with limit := some 100 } 0 [] []
    unfold attentiveApiRequestAllItems
    rw [hfin, if_neg (hn0 (by omega))]
  · intro backend q
    obtain ⟨n, _, hn0, _, hfin⟩ :=
      pageLoop_spec backend 1000 { q with limit := some 100 } 0 [] []
    unfold attentiveApiRequestAllItems
    rw [hfin, if_neg (hn0 (by omega))]
  · intro backend q
    obtain ⟨n, _, hn0, hlog, hfin⟩ :=
      pageLoop_spec backend 1000 { q with limit := some 100 } 0 [] []
    refine ⟨n, hn0 (by omega), ?_, ?_⟩
    · unfold attentiveApiRequestAllItems
      rw [hlog]
      simp
    · unfold attentiveApiRequestAllItems
      rw [hfin, if_neg (hn0 (by omega))]
      simp
  · rfl

/-! ## The dispatcher (`Attentive.node.ts`, `execute`, lines 124-188) -/

/-- One output record of the execute loop: either a success record (the
payload abstracted as a number) or the per-item error record
`{json: {error: message}, pairedItem: {item: i}}`. -/
inductive OutItem where
  | ok : Nat → OutItem
  | err : String → Nat → OutItem
deriving DecidableEq

/-- Embedding of the `for` loop of `Attentive.execute`: `process i`
stands for the per-item `execute<Resource>Operation.call(this, operation,
i)` (a list of result records, or a thrown error).  The call log records
which item indexes were actually processed.  On a failure:
`continueOnFail` appends one error record tagged with the item index and
continues; otherwise the error is re-thrown and the loop aborts. -/
def executeFrom (process : Nat → Except String (List Nat)) (cof : Bool) :
    List Nat → List OutItem → List Nat → Except String (List OutItem) × List Nat
  | [], acc, calls => (Except.ok acc, calls)
  | i :: rest, acc, calls =>
      match process i with
      | Except.ok rs => executeFrom process cof rest (acc ++ rs.map OutItem.ok) (calls ++ [i])
      | Except.error m =>
          if cof then
            executeFrom process cof rest (acc ++ [OutItem.err m i]) (calls ++ [i])
          else (Except.error m, calls ++ [i])

namespace Attentive

/-- Embedding of `Attentive.execute` over `n` input items. -/
def execute (n : Nat) (process : Nat → Except String (List Nat)) (cof : Bool) :
    Except String (List OutItem) × List Nat :=
  executeFrom process cof (List.range n) [] []

end Attentive

/-- What the loop produces per item under continue-on-failure, stated
from the spec's words: the item's result records on success, or exactly
one error record capturing the message and tagged with the item index. -/
def dispatchSpec (process : Nat → Except String (List Nat)) :
    List Nat → List OutItem
  | [] => []
  | i :: rest =>
      (match process i with
       | Except.ok rs => rs.map OutItem.ok
       | Except.error m => [OutItem.err m i]) ++ dispatchSpec process rest

/-- Whether a per-item execution succeeds. -/
def processOk (r : Except String (List Nat)) : Bool :=
  match r with
  | Except.ok _ => true
  | Except.error _ => false

theorem executeFrom_cof (process : Nat → Except String (List Nat)) :
    ∀ (idxs : List Nat) (acc : List OutItem) (calls : List Nat),
      executeFrom process true idxs acc calls
        = (Except.ok (acc ++ dispatchSpec process idxs), calls ++ idxs) := by
  intro idxs
  induction idxs with
  | nil => intro acc calls; simp [executeFrom, dispatchSpec]
  | cons i rest ih =>
      intro acc calls
      cases hp : process i with
      | ok rs =>
          simp only [executeFrom, dispatchSpec, hp]
          rw [ih]
          simp
      | error m =>
          simp only [executeFrom, dispatchSpec, hp, if_true]
          rw [ih]
          simp

theorem executeFrom_ok (process : Nat → Except String (List Nat)) (cof : Bool) :
    ∀ (idxs : List Nat) (acc : List OutItem) (calls : List Nat),
      (∀ i ∈ idxs, processOk (process i) = true) →
      executeFrom process cof idxs acc calls
        = (Except.ok (acc ++ dispatchSpec process idxs), calls ++ idxs) := by
  intro idxs
  induction idxs with
  | nil => intro acc calls _; simp [executeFrom, dispatchSpec]
  | cons i rest ih =>
      intro acc calls hall
      have hi := hall i (List.mem_cons_self i rest)
      cases hp : process i with
      | ok rs =>
          simp only [executeFrom, dispatchSpec, hp]
          rw [ih _ _ (fun j hj => hall j (List.mem_cons_of_mem i hj))]
          simp
      | error m =>
          rw [hp] at hi
          simp [processOk] at hi

theorem executeFrom_abort (process : Nat → Except String (List Nat)) (j : Nat)
    (m : String) (hj : process j = Except.error m) :
    ∀ (pre post : List Nat) (acc : List OutItem) (calls : List Nat),
      (∀ i ∈ pre, processOk (process i) = true) →
      executeFrom process false (pre ++ j :: post) acc calls
        = (Except.error m, calls ++ pre ++ [j]) := by
  intro pre
  induction pre with
  | nil =>
      intro post acc calls _
      simp only [List.nil_append, executeFrom, hj]
      simp
  | cons i rest ih =>
      intro post acc calls hall
      have hi := hall i (List.mem_cons_self i rest)
      cases hp : process i with
      | ok rs =>
          simp only [List.cons_append, executeFrom, hp]
          have hrec := ih post (acc ++ rs.map OutItem.ok) (calls ++ [i])
            (fun k hk => hall k (List.mem_cons_of_mem i hk))
          simpa using hrec
      | error msg =>
          rw [hp] at hi
          simp [processOk] at hi

/-! ### C2 — the dispatcher's failure handling -/

/-- Claim C2: with continue-on-failure enabled, every input item is
processed; an item whose execution raises contributes exactly one error
record capturing the message and tagged with that item's index, in place
among the other items' results.  With the mode disabled, the loop aborts
at the first failing item `j`: the error is re-raised and exactly the
items `0..j` were processed; and when no item fails the whole batch is
processed normally. -/
theorem C2_dispatcher (process : Nat → Except String (List Nat)) (n : Nat) :
    Attentive.execute n process true
        = (Except.ok (dispatchSpec process (List.range n)), List.range n)
      ∧ (∀ j m, j < n → process j = Except.error m →
          (∀ i, i < j → processOk (process i) = true) →
          Attentive.execute n process false
            = (Except.error m, List.range (j + 1)))
      ∧ ((∀ i, i < n → processOk (process i) = true) →
          Attentive.execute n process false
            = (Except.ok (dispatchSpec process (List.range n)), List.range n)) := by
  refine ⟨?_, ?_, ?_⟩
  · unfold Attentive.execute
    rw [executeFrom_cof]
    simp
  · intro j m hjn hj hpre
    unfold Attentive.execute
    have hsplit : List.range n = List.range j ++ j :: (List.range (n - j - 1)).map (fun k => j + 1 + k) := by
      conv_lhs => rw [show n = (j + 1) + (n - j - 1) by omega]
      rw [List.range_add, List.range_succ, List.append_assoc, List.singleton_append]
    rw [hsplit, executeFrom_abort process j m hj _ _ _ _
      (fun i hi => hpre i (by have := List.mem_range.mp hi; omega))]
    rw [List.nil_append, ← List.range_succ]
  · intro hall
    unfold Attentive.execute
    rw [executeFrom_ok process false _ _ _
      (fun i hi => hall i (List.mem_range.mp hi))]
    simp

/-- The three-item batch of the spec's dispatcher example: item 1 fails,
items 0 and 2 succeed. -/
def process3 (i : Nat) : Except String (List Nat) :=
  match i with
  | 0 => Except.ok [10]
  | 1 => Except.error "boom"
  | _ => Except.ok [20]

/-- Claim C2 witness: the dispatcher applied to the concrete three-item
batch — with continue-on-failure the result has three entries, the
middle one the error record tagged with item index 1; without it the
loop aborts after items 0 and 1. -/
theorem C2_dispatcher_witness :
    Attentive.execute 3 process3 true
        = (Except.ok [OutItem.ok 10, OutItem.err "boom" 1, OutItem.ok 20], [0, 1, 2])
      ∧ Attentive.execute 3 process3 false = (Except.error "boom", [0, 1]) := by
  constructor
  · have h := (C2_dispatcher process3 3).1
    rw [h]
    rfl
  · have h := (C2_dispatcher process3 3).2.1 1 "boom" (by omega) rfl
      (fun i hi => by
        have : i = 0 := by omega
        subst this
        rfl)
    rw [h]
    rfl

/-! ## Error handling (transport lines 23-58 and 98-127) -/

/-- The fields `handleApiError` reads off a raw upstream error. -/
structure ErrorData where
  statusCode : Option Int
  message : Option String
deriving DecidableEq

/-- The two kinds of error object the transport layer can throw: a
`NodeApiError` wrapping the raw upstream error (as thrown by
`attentiveApiRequest`), or a `NodeOperationError` carrying a message (as
thrown by `handleApiError` and the credential check). -/
inductive ThrownError where
  | nodeApiError : ErrorData → ThrownError
  | nodeOperationError : String → ThrownError
deriving DecidableEq

/-- Embedding of `handleApiError` (transport lines 98-127): the raw
message defaulted through `message || 'Unknown error occurred'`, then
the status-code switch, then a `NodeOperationError` is always thrown
(the function's return type is `never`). -/
def handleApiError (e : ErrorData) : ThrownError :=
  let errorMessage :=
    match e.message with
    | some m => if m = "" then "Unknown error occurred" else m
    | none => "Unknown error occurred"
  let finalMessage :=
    match e.statusCode with
    | some 400 => "Bad Request: " ++ errorMessage
    | some 401 => "Unauthorized: Invalid API key"
    | some 403 => "Forbidden: Insufficient permissions"
    | some 404 => "Not Found: Resource does not exist"
    | some 429 => "Rate Limited: Too many requests. Please try again later."
    | some 500 => "Server Error: Attentive API is experiencing issues"
    | _ => errorMessage
  ThrownError.nodeOperationError finalMessage

/-- Embedding of `attentiveApiRequest` (transport lines 23-58) around an
abstracted HTTP helper: a falsy `credentials?.apiKey` throws a
`NodeOperationError`; a helper failure is wrapped into a `NodeApiError`
carrying the raw error (`throw new NodeApiError(this.getNode(), error)`);
a helper success is returned as-is.  The response payload is abstracted
as a number. -/
def attentiveApiRequest (apiKey : Option String)
    (helperResult : Except ErrorData Nat) : Except ThrownError Nat :=
  match apiKey with
  | none => Except.error (ThrownError.nodeOperationError "No API key provided")
  | some k =>
      if k = "" then Except.error (ThrownError.nodeOperationError "No API key provided")
      else
        match helperResult with
        | Except.ok r => Except.ok r
        | Except.error e => Except.error (ThrownError.nodeApiError e)

/-! ### C4 — `classifyError` and how transport failures surface -/

/-- Claim C4 counterexample: a 401 upstream failure of the transport
surfaces as a `NodeApiError` wrapping the raw error — not as the
`classifyError`-derived message: `handleApiError` (the `classifyError`
of the spec) is never invoked on the transport path, so the surfaced
error differs from `handleApiError`'s output at this input. -/
theorem C4_counterexample :
    attentiveApiRequest (some "key")
        (Except.error { statusCode := some 401, message := some "boom" })
      = Except.error (ThrownError.nodeApiError
          { statusCode := some 401, message := some "boom" })
      ∧ handleApiError { statusCode := some 401, message := some "boom" }
        = ThrownError.nodeOperationError "Unauthorized: Invalid API key"
      ∧ ThrownError.nodeApiError { statusCode := some 401, message := some "boom" }
        ≠ ThrownError.nodeOperationError "Unauthorized: Invalid API key" := by
  exact ⟨rfl, rfl, by decide⟩

/-- Claim C4 (amended): `handleApiError` (the spec's `classifyError`)
maps status codes to messages with the fixed prefixes — 400 "Bad
Request" (prefixing the raw message), 401 "Unauthorized: Invalid API
key", 403 "Forbidden: Insufficient permissions", 404 "Not Found", 429
"Rate Limited", 500 "Server Error" — an unrecognized status code passes
a present non-empty raw message through unchanged (an absent or empty one
becomes "Unknown error occurred"), and it always raises a
`NodeOperationError` rather than returning a value; but a transport call
that fails upstream surfaces as a `NodeApiError` wrapping the raw error
without passing through `handleApiError`. -/
theorem C4_classifyError_amended (e : ErrorData) :
    (∀ msg, e.statusCode = some 400 → e.message = some msg → msg ≠ "" →
        handleApiError e = ThrownError.nodeOperationError ("Bad Request: " ++ msg))
      ∧ (e.statusCode = some 401 →
          handleApiError e = ThrownError.nodeOperationError "Unauthorized: Invalid API key")
      ∧ (e.statusCode = some 403 →
          handleApiError e = ThrownError.nodeOperationError "Forbidden: Insufficient permissions")
      ∧ (e.statusCode = some 404 →
          handleApiError e = ThrownError.nodeOperationError "Not Found: Resource does not exist")
      ∧ (e.statusCode = some 429 →
          handleApiError e = ThrownError.nodeOperationError "Rate Limited: Too many requests. Please try again later.")
      ∧ (e.statusCode = some 500 →
          handleApiError e = ThrownError.nodeOperationError "Server Error: Attentive API is experiencing issues")
      ∧ (∀ c msg, e.statusCode = some c →
          c ∉ ([400, 401, 403, 404, 429, 500] : List Int) →
          e.message = some msg → msg ≠ "" →
          handleApiError e = ThrownError.nodeOperationError msg)
      ∧ (e.statusCode = none → e.message = none →
          handleApiError e = ThrownError.nodeOperationError "Unknown error occurred")
      ∧ (∃ m, handleApiError e = ThrownError.nodeOperationError m)
      ∧ (∀ (key : String) (raw : ErrorData), key ≠ "" →
          attentiveApiRequest (some key) (Except.error raw)
            = Except.error (ThrownError.nodeApiError raw)) := by
  obtain ⟨sc, msg⟩ := e
  refine ⟨?_, ?_, ?_, ?_, ?_, ?_, ?_, ?_, ?_, ?_⟩
  · intro m hsc hm hne
    simp only at hsc hm
    subst hsc
    subst hm
    simp [handleApiError, hne]
  · intro hsc
    simp only at hsc
    subst hsc
    rfl
  · intro hsc
    simp only at hsc
    subst hsc
    rfl
  · intro hsc
    simp only at hsc
    subst hsc
    rfl
  · intro hsc
    simp only at hsc
    subst hsc
    rfl
  · intro hsc
    simp only at hsc
    subst hsc
    rfl
  · intro c m hsc hnotin hm hne
    simp only at hsc hm
    subst hsc
    subst hm
    simp only [List.mem_cons, List.not_mem_nil, or_false] at hnotin
    push_neg at hnotin
    obtain ⟨h400, h401, h403, h404, h429, h500⟩ := hnotin
    unfold handleApiError
    simp only [hne, if_false]
    have hmatch : (match (some c : Option Int) with
        | some 400 => "Bad Request: " ++ m
        | some 401 => "Unauthorized: Invalid API key"
        | some 403 => "Forbidden: Insufficient permissions"
        | some 404 => "Not Found: Resource does not exist"
        | some 429 => "Rate Limited: Too many requests. Please try again later."
        | some 500 => "Server Error: Attentive API is experiencing issues"
        | _ => m) = m := by
      split
      all_goals try rfl
      all_goals rename_i heq
      all_goals (injection heq with heq2)
      · exact absurd heq2 h400
      · exact absurd heq2 h401
      · exact absurd heq2 h403
      · exact absurd heq2 h404
      · exact absurd heq2 h429
      · exact absurd heq2 h500
    exact congrArg ThrownError.nodeOperationError hmatch
  · intro hsc hm
    simp only at hsc hm
    subst hsc
    subst hm
    rfl
  · exact ⟨_, rfl⟩
  · intro key raw hk
    simp [attentiveApiRequest, hk]

/-- Claim C4 witness: the amended theorem applied at concrete inputs —
a 404 error, an unrecognized status 418 with message "boom", and a 401
transport failure wrapping the raw error. -/
theorem C4_classifyError_amended_witness :
    handleApiError { statusCode := some 404, message := some "x" }
        = ThrownError.nodeOperationError "Not Found: Resource does not exist"
      ∧ handleApiError { statusCode := some 418, message := some "boom" }
        = ThrownError.nodeOperationError "boom"
      ∧ attentiveApiRequest (some "key")
          (Except.error { statusCode := some 401, message := none })
        = Except.error (ThrownError.nodeApiError
            { statusCode := some 401, message := none }) := by
  refine ⟨?_, ?_, ?_⟩
  · exact (C4_classifyError_amended
      { statusCode := some 404, message := some "x" }).2.2.2.1 rfl
  · exact (C4_classifyError_amended
      { statusCode := some 418, message := some "boom" }).2.2.2.2.2.2.1
      418 "boom" rfl (by decide) rfl (by decide)
  · exact (C4_classifyError_amended
      { statusCode := some 401, message := none }).2.2.2.2.2.2.2.2.2
      "key" { statusCode := some 401, message := none } (by decide)

/-- Claim C8 witness: the amended theorem applied at a concrete parseable
input, discharging the parse hypothesis at epoch value 1705314600000. -/
theorem C8_getTimestamp_amended_witness :
    getTimestamp 5 (some "2024-01-15T10:30:00Z")
      = Except.ok "2024-01-15T10:30:00.000Z" := by
  have h := (C8_getTimestamp_amended 5 "2024-01-15T10:30:00Z").2.2.2.1
    1705314600000 rfl
  rw [h]
  rfl
